import Mathlib

set_option maxHeartbeats 1000000

/-!
Shallow embedding of the jerry-314 line-follower core: the line position
estimator (src/lib/Jerry/Jerry.cpp), the PID controller, the BigLoop
periodic scheduler, and the serial command handlers (src/src/main.cpp).
Doubles are modelled as rationals, machine integers as Nat or Int with
explicit two-complement wrapping where the C arithmetic can overflow.
-/

/-- One sensor frame: the eight ADC readings of adc_line, left to right. -/
structure Frame where
  c0 : Nat
  c1 : Nat
  c2 : Nat
  c3 : Nat
  c4 : Nat
  c5 : Nat
  c6 : Nat
  c7 : Nat
  deriving DecidableEq

/-- MIN_CONTRAST from Jerry.cpp. -/
def MIN_CONTRAST : Nat := 200

/-- EDGE_DIFF_THRESHOLD from Jerry.cpp. -/
def EDGE_DIFF_THRESHOLD : Int := 100

/-- MIN_SIGNAL_SUM from Jerry.cpp. -/
def MIN_SIGNAL_SUM : Nat := 100

/-- WEIGHT_SCALE_FACTOR from Jerry.cpp: 127.0 / 52.5. -/
def WEIGHT_SCALE_FACTOR : Rat := 127 / 52.5

/-- Array indexing into the frame, mirroring adc_line[i]. -/
def frameGet (f : Frame) : Nat → Nat
  | 0 => f.c0
  | 1 => f.c1
  | 2 => f.c2
  | 3 => f.c3
  | 4 => f.c4
  | 5 => f.c5
  | 6 => f.c6
  | _ => f.c7

/-- The WEIGHT array from Jerry.cpp. -/
def weightAt : Nat → Rat
  | 0 => -52.5
  | 1 => -37.5
  | 2 => -22.5
  | 3 => -7.5
  | 4 => 7.5
  | 5 => 22.5
  | 6 => 37.5
  | _ => 52.5

/-- The maximum computed by findMinMax: a fold over the eight channels
starting from channel 0. -/
def frameMax (f : Frame) : Nat :=
  max (max (max (max (max (max (max f.c0 f.c1) f.c2) f.c3) f.c4) f.c5) f.c6) f.c7

/-- The minimum computed by findMinMax. -/
def frameMin (f : Frame) : Nat :=
  min (min (min (min (min (min (min f.c0 f.c1) f.c2) f.c3) f.c4) f.c5) f.c6) f.c7

/-- Reinterpretation of a uint16 reading as int16, as the C cast
(int16_t)adc_array[i] does. -/
def toInt16 (n : Nat) : Int :=
  (((n : Int) + 32768) % 65536) - 32768

/-- Truncation of an int value into int16, as storing the subtraction result
into the int16_t diff variable does. -/
def wrap16 (z : Int) : Int :=
  ((z + 32768) % 65536) - 32768

/-- checkEdgeDetection from Jerry.cpp, with the bool return and the out
parameter folded into an Option. -/
def checkEdgeDetection (max_val : Nat) (f : Frame) (edge_idx : Nat) : Option Int :=
  if max_val = frameGet f edge_idx then
    let nb := frameGet f (if edge_idx = 0 then edge_idx + 1 else edge_idx - 1)
    let diff := wrap16 (toInt16 (frameGet f edge_idx) - toInt16 nb)
    if EDGE_DIFF_THRESHOLD ≤ diff then
      some (if edge_idx = 0 then -127 else 127)
    else none
  else none

/-- Truncation toward zero, as the C cast from double to int16_t does on a
value already clamped into the int16 range. -/
def truncToInt (q : Rat) : Int :=
  if 0 ≤ q then ⌊q⌋ else ⌈q⌉

/-- One normalized (minimum-subtracted) channel value, as computed inside the
centroid loop of Jerry_lineRead. -/
def normChan (f : Frame) (i : Nat) : Nat :=
  if frameMin f < frameGet f i then frameGet f i - frameMin f else 0

/-- The plain sum of the normalized readings accumulated by the centroid
loop of Jerry_lineRead. -/
def normSum (f : Frame) : Nat :=
  normChan f 0 + normChan f 1 + normChan f 2 + normChan f 3 +
    normChan f 4 + normChan f 5 + normChan f 6 + normChan f 7

/-- The weighted sum of the normalized readings accumulated by the centroid
loop of Jerry_lineRead. -/
def weightedSum (f : Frame) : Rat :=
  (normChan f 0 : Rat) * weightAt 0 + (normChan f 1 : Rat) * weightAt 1 +
    (normChan f 2 : Rat) * weightAt 2 + (normChan f 3 : Rat) * weightAt 3 +
    (normChan f 4 : Rat) * weightAt 4 + (normChan f 5 : Rat) * weightAt 5 +
    (normChan f 6 : Rat) * weightAt 6 + (normChan f 7 : Rat) * weightAt 7

/-- Jerry_lineRead from Jerry.cpp, as a function of the frame just read and
of the retained last_line_pos fallback. It returns the estimate and the new
fallback: the hold branches return last_line_pos without touching it, the
other branches write the returned value into last_line_pos. -/
def lineRead (f : Frame) (last_line_pos : Int) : Int × Int :=
  let min_val := frameMin f
  let max_val := frameMax f
  let contrast := max_val - min_val
  if contrast < MIN_CONTRAST then
    (last_line_pos, last_line_pos)
  else
    match checkEdgeDetection max_val f 0 with
    | some r => (r, r)
    | none =>
      match checkEdgeDetection max_val f 7 with
      | some r => (r, r)
      | none =>
        let weighted_sum := weightedSum f
        let sum := normSum f
        if sum < MIN_SIGNAL_SUM then
          (last_line_pos, last_line_pos)
        else
          let line_pos_d := weighted_sum / (sum : Rat) * WEIGHT_SCALE_FACTOR
          let clamped :=
            if 127 < line_pos_d then (127 : Rat)
            else if line_pos_d < -127 then (-127 : Rat)
            else line_pos_d
          let line_pos := truncToInt clamped
          (line_pos, line_pos)

/-- Iteration of Jerry_lineRead over a sequence of frames, threading the
last_line_pos state. -/
def runLineRead (fs : List Frame) (last_line_pos : Int) : Int :=
  fs.foldl (fun l f => (lineRead f l).2) last_line_pos

theorem checkEdge_zero_result (m : Nat) (f : Frame) (r : Int)
    (h : checkEdgeDetection m f 0 = some r) : r = -127 := by
  unfold checkEdgeDetection at h
  norm_num at h
  omega

theorem checkEdge_seven_result (m : Nat) (f : Frame) (r : Int)
    (h : checkEdgeDetection m f 7 = some r) : r = 127 := by
  unfold checkEdgeDetection at h
  norm_num at h
  omega

theorem truncToInt_range (q : Rat) (h1 : -127 ≤ q) (h2 : q ≤ 127) :
    -127 ≤ truncToInt q ∧ truncToInt q ≤ 127 := by
  unfold truncToInt
  split
  · constructor
    · have : (0 : Int) ≤ ⌊q⌋ := Int.floor_nonneg.mpr (by assumption)
      omega
    · have : ⌊q⌋ ≤ ⌊(127 : Rat)⌋ := Int.floor_le_floor h2
      simpa using this
  · have hq : q ≤ 0 := le_of_not_le (by assumption)
    constructor
    · have h1' : ((-127 : Int) : Rat) ≤ (⌈q⌉ : Rat) :=
        le_trans (by push_cast; exact h1) (Int.le_ceil q)
      exact_mod_cast h1'
    · have h0 : ⌈q⌉ ≤ ⌈(0 : Rat)⌉ := Int.ceil_le_ceil hq
      simp at h0
      omega

theorem lineRead_step_range (f : Frame) (prev : Int)
    (h : -127 ≤ prev ∧ prev ≤ 127) :
    -127 ≤ (lineRead f prev).2 ∧ (lineRead f prev).2 ≤ 127 := by
  simp only [lineRead]
  split
  · simpa using h
  · split
    · rename_i r hr
      have := checkEdge_zero_result _ f r hr
      subst this
      norm_num
    · split
      · rename_i r hr
        have := checkEdge_seven_result _ f r hr
        subst this
        norm_num
      · split
        · simpa using h
        · have hc : -127 ≤ (if 127 < weightedSum f / (normSum f : Rat) * WEIGHT_SCALE_FACTOR then (127 : Rat)
              else if weightedSum f / (normSum f : Rat) * WEIGHT_SCALE_FACTOR < -127 then (-127 : Rat)
              else weightedSum f / (normSum f : Rat) * WEIGHT_SCALE_FACTOR) ∧
              (if 127 < weightedSum f / (normSum f : Rat) * WEIGHT_SCALE_FACTOR then (127 : Rat)
              else if weightedSum f / (normSum f : Rat) * WEIGHT_SCALE_FACTOR < -127 then (-127 : Rat)
              else weightedSum f / (normSum f : Rat) * WEIGHT_SCALE_FACTOR) ≤ 127 := by
            split
            · norm_num
            · split
              · norm_num
              · constructor <;> linarith [le_of_not_lt (by assumption : ¬ (127 : Rat) < _), le_of_not_lt (by assumption : ¬ _ < (-127 : Rat))]
          exact truncToInt_range _ hc.1 hc.2

/-- C3: a frame whose contrast is below MIN_CONTRAST makes Jerry_lineRead
return the previous fallback unchanged and leave the fallback itself
untouched, for every prior fallback value. -/
theorem lineRead_low_contrast_holds (f : Frame) (prev : Int)
    (h : frameMax f - frameMin f < MIN_CONTRAST) :
    lineRead f prev = (prev, prev) := by
  unfold lineRead
  simp [h]

/-- Witness for the low-contrast hold theorem at a concrete frame. -/
theorem lineRead_low_contrast_holds_witness :
    lineRead ⟨10, 10, 10, 10, 10, 10, 10, 10⟩ 42 = (42, 42) :=
  lineRead_low_contrast_holds ⟨10, 10, 10, 10, 10, 10, 10, 10⟩ 42 (by decide)

/-- C8: starting from the initial fallback value 0, the estimate produced by
any sequence of Jerry_lineRead calls (and therefore the stored fallback)
always lies within the interval from -127 to 127. -/
theorem runLineRead_range (fs : List Frame) :
    -127 ≤ runLineRead fs 0 ∧ runLineRead fs 0 ≤ 127 := by
  have main : ∀ (gs : List Frame) (p : Int), -127 ≤ p ∧ p ≤ 127 →
      -127 ≤ runLineRead gs p ∧ runLineRead gs p ≤ 127 := by
    intro gs
    induction gs with
    | nil => intro p hp; simpa [runLineRead] using hp
    | cons g rest ih =>
      intro p hp
      have hstep := lineRead_step_range g p hp
      have : runLineRead (g :: rest) p = runLineRead rest (lineRead g p).2 := by
        simp [runLineRead]
      rw [this]
      exact ih _ hstep
  exact main fs 0 (by norm_num)

theorem wrap16_toInt16_sub (a b : Nat) (ha : a ≤ 32767) (hb : b ≤ 32767) :
    wrap16 (toInt16 a - toInt16 b) = (a : Int) - b := by
  unfold wrap16 toInt16
  omega

theorem checkEdge_zero_spec (m : Nat) (f : Frame) :
    checkEdgeDetection m f 0 =
      if m = f.c0 ∧ EDGE_DIFF_THRESHOLD ≤ wrap16 (toInt16 f.c0 - toInt16 f.c1)
      then some (-127) else none := by
  by_cases h1 : m = f.c0
  · by_cases h2 : EDGE_DIFF_THRESHOLD ≤ wrap16 (toInt16 f.c0 - toInt16 f.c1)
    · simp [checkEdgeDetection, frameGet, h1, h2]
    · simp [checkEdgeDetection, frameGet, h1, h2]
  · simp [checkEdgeDetection, frameGet, h1]

theorem checkEdge_seven_spec (m : Nat) (f : Frame) :
    checkEdgeDetection m f 7 =
      if m = f.c7 ∧ EDGE_DIFF_THRESHOLD ≤ wrap16 (toInt16 f.c7 - toInt16 f.c6)
      then some 127 else none := by
  by_cases h1 : m = f.c7
  · by_cases h2 : EDGE_DIFF_THRESHOLD ≤ wrap16 (toInt16 f.c7 - toInt16 f.c6)
    · simp [checkEdgeDetection, frameGet, h1, h2]
    · simp [checkEdgeDetection, frameGet, h1, h2]
  · simp [checkEdgeDetection, frameGet, h1]

/-- C2 fails as stated: in this frame channel 0 holds the maximum and the
inward drop is 110, at or above EDGE_DIFF_THRESHOLD, yet the contrast (110)
is below MIN_CONTRAST, so Jerry_lineRead holds the prior estimate 0 instead
of returning -127. -/
theorem lineRead_edge_low_contrast_counterexample :
    frameMax ⟨150, 40, 40, 40, 40, 40, 40, 40⟩ =
        Frame.c0 ⟨150, 40, 40, 40, 40, 40, 40, 40⟩ ∧
      EDGE_DIFF_THRESHOLD ≤ (150 : Int) - 40 ∧
      lineRead ⟨150, 40, 40, 40, 40, 40, 40, 40⟩ 0 = (0, 0) := by decide

/-- C2 amended: for frames of readings within the int16 range, if the
contrast gate passes (this precondition is what the original claim omitted),
a maximal channel 0 with inward drop at least the edge threshold yields
exactly -127 and updates the fallback to -127; symmetrically channel 7
yields 127, provided the left-edge test, which is checked first, does not
fire. -/
theorem lineRead_edge_extremes (f : Frame) (prev : Int)
    (hb : f.c0 ≤ 32767 ∧ f.c1 ≤ 32767 ∧ f.c2 ≤ 32767 ∧ f.c3 ≤ 32767 ∧
      f.c4 ≤ 32767 ∧ f.c5 ≤ 32767 ∧ f.c6 ≤ 32767 ∧ f.c7 ≤ 32767) :
    (frameMax f = f.c0 → EDGE_DIFF_THRESHOLD ≤ (f.c0 : Int) - f.c1 →
      MIN_CONTRAST ≤ frameMax f - frameMin f →
      lineRead f prev = (-127, -127)) ∧
    (frameMax f = f.c7 → EDGE_DIFF_THRESHOLD ≤ (f.c7 : Int) - f.c6 →
      MIN_CONTRAST ≤ frameMax f - frameMin f →
      ¬(frameMax f = f.c0 ∧ EDGE_DIFF_THRESHOLD ≤ (f.c0 : Int) - f.c1) →
      lineRead f prev = (127, 127)) := by
  obtain ⟨b0, b1, b2, b3, b4, b5, b6, b7⟩ := hb
  have hw01 := wrap16_toInt16_sub f.c0 f.c1 b0 b1
  have hw76 := wrap16_toInt16_sub f.c7 f.c6 b7 b6
  constructor
  · intro hmax hd hcon
    have he0 : checkEdgeDetection (frameMax f) f 0 = some (-127) := by
      rw [checkEdge_zero_spec, hw01, if_pos ⟨hmax, hd⟩]
    simp only [lineRead]
    rw [if_neg (by omega), he0]
  · intro hmax hd hcon hnoleft
    have he0 : checkEdgeDetection (frameMax f) f 0 = none := by
      rw [checkEdge_zero_spec, hw01, if_neg hnoleft]
    have he7 : checkEdgeDetection (frameMax f) f 7 = some 127 := by
      rw [checkEdge_seven_spec, hw76, if_pos ⟨hmax, hd⟩]
    simp only [lineRead]
    rw [if_neg (by omega), he0, he7]

/-- Witness for the amended edge theorem at a concrete high-contrast frame. -/
theorem lineRead_edge_extremes_witness :
    lineRead ⟨500, 100, 100, 100, 100, 100, 100, 100⟩ 0 = (-127, -127) :=
  (lineRead_edge_extremes ⟨500, 100, 100, 100, 100, 100, 100, 100⟩ 0
      (by decide)).1 (by decide) (by decide) (by decide)

/-- C4 fails as stated: this frame is perfectly symmetric, has contrast 300
and normalized signal 600, yet the left-edge test fires first and
Jerry_lineRead returns -127 instead of 0. -/
theorem lineRead_symmetric_counterexample :
    (⟨300, 0, 0, 0, 0, 0, 0, 300⟩ : Frame).c0 = (⟨300, 0, 0, 0, 0, 0, 0, 300⟩ : Frame).c7 ∧
      (⟨300, 0, 0, 0, 0, 0, 0, 300⟩ : Frame).c1 = (⟨300, 0, 0, 0, 0, 0, 0, 300⟩ : Frame).c6 ∧
      (⟨300, 0, 0, 0, 0, 0, 0, 300⟩ : Frame).c2 = (⟨300, 0, 0, 0, 0, 0, 0, 300⟩ : Frame).c5 ∧
      (⟨300, 0, 0, 0, 0, 0, 0, 300⟩ : Frame).c3 = (⟨300, 0, 0, 0, 0, 0, 0, 300⟩ : Frame).c4 ∧
      MIN_CONTRAST ≤ frameMax ⟨300, 0, 0, 0, 0, 0, 0, 300⟩ -
        frameMin ⟨300, 0, 0, 0, 0, 0, 0, 300⟩ ∧
      MIN_SIGNAL_SUM ≤ normSum ⟨300, 0, 0, 0, 0, 0, 0, 300⟩ ∧
      (lineRead ⟨300, 0, 0, 0, 0, 0, 0, 300⟩ 0).1 = -127 := by decide

/-- C4 amended: a perfectly symmetric frame with sufficient contrast and
sufficient normalized signal yields position 0, provided the edge-detection
test, which runs before the centroid and can hijack symmetric frames with a
steep outer edge, does not fire (by symmetry the left-edge condition covers
the right edge as well). -/
theorem lineRead_symmetric_zero (f : Frame) (prev : Int)
    (hsym : f.c0 = f.c7 ∧ f.c1 = f.c6 ∧ f.c2 = f.c5 ∧ f.c3 = f.c4)
    (hcon : MIN_CONTRAST ≤ frameMax f - frameMin f)
    (hsig : MIN_SIGNAL_SUM ≤ normSum f)
    (hedge : ¬(frameMax f = f.c0 ∧
      EDGE_DIFF_THRESHOLD ≤ wrap16 (toInt16 f.c0 - toInt16 f.c1))) :
    (lineRead f prev).1 = 0 := by
  obtain ⟨a0, a1, a2, a3, a4, a5, a6, a7⟩ := f
  obtain ⟨h07, h16, h25, h34⟩ := hsym
  simp only at h07 h16 h25 h34 hcon hsig hedge
  subst h07
  subst h16
  subst h25
  subst h34
  have he0 : checkEdgeDetection (frameMax ⟨a0, a1, a2, a3, a3, a2, a1, a0⟩)
      ⟨a0, a1, a2, a3, a3, a2, a1, a0⟩ 0 = none := by
    rw [checkEdge_zero_spec, if_neg hedge]
  have he7 : checkEdgeDetection (frameMax ⟨a0, a1, a2, a3, a3, a2, a1, a0⟩)
      ⟨a0, a1, a2, a3, a3, a2, a1, a0⟩ 7 = none := by
    rw [checkEdge_seven_spec]
    exact if_neg hedge
  have hws : weightedSum ⟨a0, a1, a2, a3, a3, a2, a1, a0⟩ = 0 := by
    unfold weightedSum normChan frameGet weightAt
    ring
  simp only [lineRead]
  rw [if_neg (by omega), he0, he7]
  simp only []
  rw [if_neg (by omega)]
  rw [hws]
  norm_num [truncToInt]

/-- Witness for the amended symmetric-frame theorem at a concrete frame. -/
theorem lineRead_symmetric_zero_witness :
    (lineRead ⟨100, 100, 400, 400, 400, 400, 100, 100⟩ 7).1 = 0 :=
  lineRead_symmetric_zero ⟨100, 100, 400, 400, 400, 400, 100, 100⟩ 7
    (by decide) (by decide) (by decide) (by decide)

/-- Controller state of the PID class (PID.h private fields). -/
structure PIDState where
  kp : Rat
  ki : Rat
  kd : Rat
  lastError : Rat
  integral : Rat
  outputMin : Rat
  outputMax : Rat
  limitsEnabled : Bool
  deriving DecidableEq

/-- The PID constructor PID(kp, ki, kd). -/
def PIDState.init (kp ki kd : Rat) : PIDState :=
  ⟨kp, ki, kd, 0, 0, 0, 0, false⟩

/-- PID::compute from the PID implementation file, returning the output and
the updated state. -/
def PIDState.compute (s : PIDState) (error : Rat) : Rat × PIDState :=
  let integral1 :=
    if s.ki ≠ 0 then
      let itent := s.integral + error
      if s.limitsEnabled then
        let output_no_integral := s.kp * error + (error - s.lastError) * s.kd
        if (s.outputMax ≤ output_no_integral ∧ 0 < itent) ∨
            (output_no_integral ≤ s.outputMin ∧ itent < 0) then
          itent - error
        else itent
      else itent
    else s.integral
  let derivative := (error - s.lastError) * s.kd
  let output := s.kp * error + s.ki * integral1 + derivative
  let output2 :=
    if s.limitsEnabled then
      if s.outputMax < output then s.outputMax
      else if output < s.outputMin then s.outputMin
      else output
    else output
  (output2, { s with integral := integral1, lastError := error })

/-- PID::reset. -/
def PIDState.reset (s : PIDState) : PIDState :=
  { s with lastError := 0, integral := 0 }

/-- PID::setKp. -/
def PIDState.setKp (s : PIDState) (v : Rat) : PIDState := { s with kp := v }

/-- PID::setKi. -/
def PIDState.setKi (s : PIDState) (v : Rat) : PIDState := { s with ki := v }

/-- PID::setKd. -/
def PIDState.setKd (s : PIDState) (v : Rat) : PIDState := { s with kd := v }

/-- PID::setOutputLimits: stores the bounds and always enables clamping. -/
def PIDState.setOutputLimits (s : PIDState) (mn mx : Rat) : PIDState :=
  { s with outputMin := mn, outputMax := mx, limitsEnabled := true }

/-- One public operation on the PID object. -/
inductive PIDOp where
  | compute (e : Rat)
  | reset
  | setKp (v : Rat)
  | setKi (v : Rat)
  | setKd (v : Rat)
  | setOutputLimits (mn mx : Rat)
  deriving DecidableEq

/-- Application of one operation: the new state and the returned output, if
the operation was a compute. -/
def applyOp (s : PIDState) : PIDOp → PIDState × Option Rat
  | .compute e => ((s.compute e).2, some (s.compute e).1)
  | .reset => (s.reset, none)
  | .setKp v => (s.setKp v, none)
  | .setKi v => (s.setKi v, none)
  | .setKd v => (s.setKd v, none)
  | .setOutputLimits mn mx => (s.setOutputLimits mn mx, none)

/-- Running a sequence of operations, collecting every compute output. -/
def runOps (s : PIDState) : List PIDOp → PIDState × List Rat
  | [] => (s, [])
  | op :: rest =>
    let step := applyOp s op
    let tail := runOps step.1 rest
    (tail.1, step.2.toList ++ tail.2)

/-- Operations that leave the output limits untouched: everything except
setOutputLimits. -/
def PIDOp.keepsLimits : PIDOp → Bool
  | .setOutputLimits _ _ => false
  | _ => true

/-- Operations that touch only the dynamic state (integral and lastError):
compute and reset. -/
def PIDOp.isDynamic : PIDOp → Bool
  | .compute _ => true
  | .reset => true
  | _ => false

/-- C5: with a nonzero integral gain, compute tentatively adds the error to
the integral and undoes the accumulation exactly when output limits are
enabled and the proportional-plus-derivative part alone already reaches the
upper limit while the tentative integral is positive, or the lower limit
while it is negative; in every other case the accumulation stands. -/
theorem compute_antiwindup (s : PIDState) (e : Rat) (h : s.ki ≠ 0) :
    ((s.compute e).2).integral =
      if s.limitsEnabled = true ∧
          ((s.outputMax ≤ s.kp * e + s.kd * (e - s.lastError) ∧ 0 < s.integral + e) ∨
            (s.kp * e + s.kd * (e - s.lastError) ≤ s.outputMin ∧ s.integral + e < 0))
      then s.integral else s.integral + e := by
  simp only [PIDState.compute, if_pos h]
  rw [mul_comm (e - s.lastError) s.kd]
  by_cases hL : s.limitsEnabled
  · rw [if_pos hL]
    by_cases hC : (s.outputMax ≤ s.kp * e + s.kd * (e - s.lastError) ∧ 0 < s.integral + e) ∨
        (s.kp * e + s.kd * (e - s.lastError) ≤ s.outputMin ∧ s.integral + e < 0)
    · rw [if_pos hC, if_pos ⟨hL, hC⟩]
      ring
    · rw [if_neg hC, if_neg (fun hc => hC hc.2)]
  · rw [if_neg hL, if_neg (fun hc => hL (by simp [hc.1]))]

/-- Witness for the anti-windup theorem at a concrete saturated state. -/
theorem compute_antiwindup_witness :
    ((PIDState.compute ⟨10, 1, 0, 0, 2, -5, 5, true⟩ 3).2).integral =
      if (true : Bool) = true ∧
          (((5 : Rat) ≤ 10 * 3 + 0 * (3 - 0) ∧ (0 : Rat) < 2 + 3) ∨
            ((10 : Rat) * 3 + 0 * (3 - 0) ≤ -5 ∧ (2 : Rat) + 3 < 0))
      then (2 : Rat) else 2 + 3 :=
  compute_antiwindup ⟨10, 1, 0, 0, 2, -5, 5, true⟩ 3 (by norm_num)

theorem compute_clamped (s : PIDState) (e : Rat) (hE : s.limitsEnabled = true)
    (hm : s.outputMin ≤ s.outputMax) :
    s.outputMin ≤ (s.compute e).1 ∧ (s.compute e).1 ≤ s.outputMax := by
  have hshape : ∀ x : Rat,
      s.outputMin ≤ (if s.outputMax < x then s.outputMax
        else if x < s.outputMin then s.outputMin else x) ∧
      (if s.outputMax < x then s.outputMax
        else if x < s.outputMin then s.outputMin else x) ≤ s.outputMax := by
    intro x
    split_ifs with hx1 hx2
    · exact ⟨hm, le_refl _⟩
    · exact ⟨le_refl _, hm⟩
    · exact ⟨le_of_not_lt hx2, le_of_not_lt hx1⟩
  simp only [PIDState.compute, hE, if_true]
  exact hshape _

theorem applyOp_preserves_limits (s : PIDState) (op : PIDOp)
    (h : op.keepsLimits = true) :
    (applyOp s op).1.limitsEnabled = s.limitsEnabled ∧
      (applyOp s op).1.outputMin = s.outputMin ∧
      (applyOp s op).1.outputMax = s.outputMax := by
  cases op <;>
    simp_all [applyOp, PIDOp.keepsLimits, PIDState.compute, PIDState.reset,
      PIDState.setKp, PIDState.setKi, PIDState.setKd]

theorem runOps_outputs_clamped (lo hi : Rat) (hlh : lo ≤ hi) :
    ∀ (ops : List PIDOp) (s : PIDState),
      s.limitsEnabled = true → s.outputMin = lo → s.outputMax = hi →
      (∀ op ∈ ops, op.keepsLimits = true) →
      ∀ o ∈ (runOps s ops).2, lo ≤ o ∧ o ≤ hi := by
  intro ops
  induction ops with
  | nil => intro s _ _ _ _ o ho; simp [runOps] at ho
  | cons op rest ih =>
    intro s hE hmn hmx hops o ho
    have hop : op.keepsLimits = true := hops op (by simp)
    have hpres := applyOp_preserves_limits s op hop
    have hrest : ∀ o ∈ (runOps (applyOp s op).1 rest).2, lo ≤ o ∧ o ≤ hi :=
      ih (applyOp s op).1 (hpres.1.trans hE) (hpres.2.1.trans hmn)
        (hpres.2.2.trans hmx) (fun p hp => hops p (by simp [hp]))
    simp only [runOps, List.mem_append] at ho
    rcases ho with hhead | htail
    · cases op with
      | compute e =>
        simp only [applyOp, Option.toList, List.mem_singleton] at hhead
        subst hhead
        have := compute_clamped s e hE (by rw [hmn, hmx]; exact hlh)
        rw [hmn, hmx] at this
        exact this
      | reset => simp [applyOp] at hhead
      | setKp v => simp [applyOp] at hhead
      | setKi v => simp [applyOp] at hhead
      | setKd v => simp [applyOp] at hhead
      | setOutputLimits mn mx => simp [applyOp] at hhead
    · exact hrest o htail

/-- C6: once setOutputLimits(-X, X) has enabled clamping with X nonnegative,
every output produced by any subsequent sequence of computes, resets and
gain changes lies inside the interval from -X to X. -/
theorem pid_output_limits (s : PIDState) (X : Rat) (ops : List PIDOp)
    (hX : 0 ≤ X) (hops : ∀ op ∈ ops, op.keepsLimits = true) :
    ∀ o ∈ (runOps (s.setOutputLimits (-X) X) ops).2, -X ≤ o ∧ o ≤ X := by
  exact runOps_outputs_clamped (-X) X (by linarith) ops
    (s.setOutputLimits (-X) X) rfl rfl rfl hops

/-- Witness for the output-limit theorem: a single saturating compute. -/
theorem pid_output_limits_witness :
    -1 ≤ ((runOps ((PIDState.init 1 0 5).setOutputLimits (-1) 1)
        [PIDOp.compute 5]).2).headD 0 ∧
      ((runOps ((PIDState.init 1 0 5).setOutputLimits (-1) 1)
        [PIDOp.compute 5]).2).headD 0 ≤ 1 :=
  pid_output_limits (PIDState.init 1 0 5) 1 [PIDOp.compute 5]
    (by norm_num) (by decide)
    (((runOps ((PIDState.init 1 0 5).setOutputLimits (-1) 1)
        [PIDOp.compute 5]).2).headD 0) (by simp [runOps, applyOp])

/-- C9 fails as stated: a setKp call in the history before reset() changes
the result of the compute() after reset(), because reset() clears only the
integral and lastError, not the gains. -/
theorem pid_reset_history_counterexample :
    (((runOps (PIDState.init 1 0 5) [PIDOp.setKp 2]).1.reset).compute 1).1 ≠
      (((runOps (PIDState.init 1 0 5) []).1.reset).compute 1).1 := by
  simp [runOps, applyOp, PIDState.init, PIDState.reset, PIDState.setKp,
    PIDState.compute]

theorem runOps_dynamic_preserves_static (h : List PIDOp) :
    ∀ s : PIDState, (∀ op ∈ h, op.isDynamic = true) →
      (runOps s h).1.kp = s.kp ∧ (runOps s h).1.ki = s.ki ∧
      (runOps s h).1.kd = s.kd ∧ (runOps s h).1.outputMin = s.outputMin ∧
      (runOps s h).1.outputMax = s.outputMax ∧
      (runOps s h).1.limitsEnabled = s.limitsEnabled := by
  induction h with
  | nil => intro s _; simp [runOps]
  | cons op rest ih =>
    intro s hd
    have hop : op.isDynamic = true := hd op (by simp)
    have htail := ih (applyOp s op).1 (fun p hp => hd p (by simp [hp]))
    have hstep : (applyOp s op).1.kp = s.kp ∧ (applyOp s op).1.ki = s.ki ∧
        (applyOp s op).1.kd = s.kd ∧ (applyOp s op).1.outputMin = s.outputMin ∧
        (applyOp s op).1.outputMax = s.outputMax ∧
        (applyOp s op).1.limitsEnabled = s.limitsEnabled := by
      cases op <;>
        simp_all [applyOp, PIDOp.isDynamic, PIDState.compute, PIDState.reset]
    simp only [runOps]
    refine ⟨htail.1.trans hstep.1, htail.2.1.trans hstep.2.1,
      htail.2.2.1.trans hstep.2.2.1, htail.2.2.2.1.trans hstep.2.2.2.1,
      htail.2.2.2.2.1.trans hstep.2.2.2.2.1,
      htail.2.2.2.2.2.trans hstep.2.2.2.2.2⟩

theorem reset_eq_of_static_eq (s1 s2 : PIDState)
    (h1 : s1.kp = s2.kp) (h2 : s1.ki = s2.ki) (h3 : s1.kd = s2.kd)
    (h4 : s1.outputMin = s2.outputMin) (h5 : s1.outputMax = s2.outputMax)
    (h6 : s1.limitsEnabled = s2.limitsEnabled) :
    s1.reset = s2.reset := by
  cases s1
  cases s2
  simp_all [PIDState.reset]

/-- C9 amended: reset() followed by compute(e) gives the same output and the
same resulting state regardless of the history of compute and reset calls
before the reset(); histories containing gain or limit setters are excluded,
since reset() deliberately leaves those fields alone. -/
theorem pid_reset_dynamic_history (s : PIDState) (h1 h2 : List PIDOp) (e : Rat)
    (hd1 : ∀ op ∈ h1, op.isDynamic = true) (hd2 : ∀ op ∈ h2, op.isDynamic = true) :
    ((runOps s h1).1.reset).compute e = ((runOps s h2).1.reset).compute e := by
  have p1 := runOps_dynamic_preserves_static h1 s hd1
  have p2 := runOps_dynamic_preserves_static h2 s hd2
  have : (runOps s h1).1.reset = (runOps s h2).1.reset :=
    reset_eq_of_static_eq _ _ (p1.1.trans p2.1.symm) (p1.2.1.trans p2.2.1.symm)
      (p1.2.2.1.trans p2.2.2.1.symm) (p1.2.2.2.1.trans p2.2.2.2.1.symm)
      (p1.2.2.2.2.1.trans p2.2.2.2.2.1.symm)
      (p1.2.2.2.2.2.trans p2.2.2.2.2.2.symm)
  rw [this]

/-- Witness for the amended reset theorem on two concrete dynamic histories. -/
theorem pid_reset_dynamic_history_witness :
    (((runOps (PIDState.init 1 0 5) [PIDOp.compute 2, PIDOp.reset,
          PIDOp.compute 4]).1.reset).compute 1) =
      (((runOps (PIDState.init 1 0 5) [PIDOp.compute 9]).1.reset).compute 1) :=
  pid_reset_dynamic_history (PIDState.init 1 0 5)
    [PIDOp.compute 2, PIDOp.reset, PIDOp.compute 4] [PIDOp.compute 9] 1
    (by decide) (by decide)

/-- The modulus of uint32 arithmetic. -/
def U32 : Nat := 4294967296

/-- uint32 subtraction a minus b, as the C expression currentTime -
lastExecutionTime computes it for operands below U32. -/
def usub (a b : Nat) : Nat := (a + U32 - b % U32) % U32

/-- The BigLoop scheduler state from BigLoop.h. -/
structure BigLoop where
  intervalMs : Nat
  lastExecutionTime : Nat
  deriving DecidableEq

/-- BigLoop::shouldExecuteTask, with the millis() reading passed in as
currentTime; returns the fired flag and the updated state. -/
def shouldExecuteTask (s : BigLoop) (currentTime : Nat) : Bool × BigLoop :=
  if s.intervalMs ≤ usub currentTime s.lastExecutionTime then
    let advanced := (s.lastExecutionTime + s.intervalMs) % U32
    if s.intervalMs ≤ usub currentTime advanced then
      (true, { s with lastExecutionTime := currentTime })
    else
      (true, { s with lastExecutionTime := advanced })
  else
    (false, s)

/-- C7: with a nonzero period, a call of shouldExecuteTask that fires leaves
the schedule so that an immediately repeated call at the same time does not
fire again, and a call that takes the catch-up branch after a stall of more
than one period snaps the schedule to the current time, so that no call
fires again until a full period has elapsed (no burst of queued
executions). -/
theorem bigLoop_no_double_fire (s : BigLoop) (t : Nat)
    (hI : 0 < s.intervalMs) (ht : t < U32) :
    ((shouldExecuteTask s t).1 = true →
      (shouldExecuteTask (shouldExecuteTask s t).2 t).1 = false) ∧
    (s.intervalMs ≤ usub t s.lastExecutionTime →
      s.intervalMs ≤ usub t ((s.lastExecutionTime + s.intervalMs) % U32) →
      (shouldExecuteTask s t).2.lastExecutionTime = t ∧
      ∀ u, usub u t < s.intervalMs →
        (shouldExecuteTask (shouldExecuteTask s t).2 u).1 = false) := by
  have h0 : usub t t = 0 := by
    unfold usub U32
    omega
  constructor
  · intro hfire
    by_cases c1 : s.intervalMs ≤ usub t s.lastExecutionTime
    · by_cases c2 : s.intervalMs ≤ usub t ((s.lastExecutionTime + s.intervalMs) % U32)
      · have hstate : (shouldExecuteTask s t).2 = { s with lastExecutionTime := t } := by
          simp [shouldExecuteTask, c1, c2]
        rw [hstate]
        simp only [shouldExecuteTask]
        rw [h0, if_neg (by omega)]
      · have hstate : (shouldExecuteTask s t).2 =
            { s with lastExecutionTime := (s.lastExecutionTime + s.intervalMs) % U32 } := by
          simp [shouldExecuteTask, c1, c2]
        rw [hstate]
        simp only [shouldExecuteTask]
        rw [if_neg c2]
    · exfalso
      have hfalse : (shouldExecuteTask s t).1 = false := by
        simp [shouldExecuteTask, c1]
      rw [hfalse] at hfire
      exact Bool.false_ne_true hfire
  · intro c1 c2
    have hstate : (shouldExecuteTask s t).2 = { s with lastExecutionTime := t } := by
      simp [shouldExecuteTask, c1, c2]
    refine ⟨by rw [hstate], ?_⟩
    intro u hu
    rw [hstate]
    simp only [shouldExecuteTask]
    rw [if_neg (by omega)]

/-- Witness for the scheduler theorem: period 100, schedule at 0, a call at
time 250 takes the catch-up branch and a repeated call at 250 does not fire. -/
theorem bigLoop_no_double_fire_witness :
    (shouldExecuteTask (shouldExecuteTask ⟨100, 0⟩ 250).2 250).1 = false ∧
      (shouldExecuteTask ⟨100, 0⟩ 250).2.lastExecutionTime = 250 :=
  ⟨(bigLoop_no_double_fire ⟨100, 0⟩ 250 (by decide) (by decide)).1 (by decide),
    ((bigLoop_no_double_fire ⟨100, 0⟩ 250 (by decide) (by decide)).2
      (by decide) (by decide)).1⟩

/-- One token produced by the serial terminal tokenizer, as a character
list. -/
abbrev Token := List Char

/-- The C expression type[0]: the first character of a token, NUL for an
empty one. -/
def firstChar (t : Token) : Char := t.headD (Char.ofNat 0)

/-- The mutable state touched by the serial command handlers of main.cpp:
the three PID gains, the base speed and the six logging flags. -/
structure SysState where
  kp : Rat
  ki : Rat
  kd : Rat
  baseSpeed : Int
  logP : Bool
  logI : Bool
  logD : Bool
  logS : Bool
  logL : Bool
  logO : Bool
  deriving DecidableEq

/-- The serial messages the handlers can emit, one constructor per distinct
print site of main.cpp. -/
inductive Msg where
  | usagePid
  | pidEchoParam (param : Token)
  | pidValue (v : Rat)
  | invalidPidParam
  | usageMotor
  | usageMotorSpeed
  | motorSpeedEcho (v : Int)
  | usageLog
  | logTypesHint
  | invalidLogType
  | helpText
  | unknownCmd (cmd : Token)
  | helpHint
  | bootloaderMsg
  deriving DecidableEq

/-- Decimal digit accumulation, as the integer part of the C library atof
and atoi perform it: consume leading digits, return the value and the rest. -/
def parseDigits : List Char → Nat → Nat × List Char
  | [], acc => (acc, [])
  | c :: cs, acc =>
    if c.isDigit then parseDigits cs (acc * 10 + (c.toNat - 48))
    else (acc, c :: cs)

/-- Fractional digit accumulation of the C library atof, with the running
scale of the next digit. -/
def parseFrac : List Char → Rat → Rat → Rat
  | [], _, acc => acc
  | c :: cs, scale, acc =>
    if c.isDigit then parseFrac cs (scale / 10) (acc + scale * ((c.toNat - 48 : Nat) : Rat))
    else acc

/-- Magnitude part of the C library atof on the decimal fragment the
firmware receives: integer digits and an optional fraction; trailing
garbage is ignored and no parsable digits yield 0, as atof does. -/
def atofMag (t : List Char) : Rat :=
  let ip := parseDigits t 0
  match ip.2 with
  | '.' :: frac => (ip.1 : Rat) + parseFrac frac (1 / 10) 0
  | _ => (ip.1 : Rat)

/-- The C library atof on the decimal fragment the firmware receives. -/
def atof : List Char → Rat
  | '-' :: cs => -(atofMag cs)
  | '+' :: cs => atofMag cs
  | t => atofMag t

/-- The C library atoi on the decimal fragment the firmware receives. -/
def atoi : List Char → Int
  | '-' :: cs => -((parseDigits cs 0).1 : Int)
  | '+' :: cs => ((parseDigits cs 0).1 : Int)
  | t => ((parseDigits t 0).1 : Int)

/-- cmdPid from main.cpp, over the argument tokens following the command
word; returns the new state and the emitted messages. -/
def cmdPid (s : SysState) (args : List Token) : SysState × List Msg :=
  match args with
  | [] => (s, [Msg.usagePid])
  | [_] => (s, [Msg.usagePid])
  | paramType :: valueStr :: _ =>
    if valueStr = ['?'] then
      if firstChar paramType = 'p' then
        (s, [Msg.pidEchoParam paramType, Msg.pidValue s.kp])
      else if firstChar paramType = 'i' then
        (s, [Msg.pidEchoParam paramType, Msg.pidValue s.ki])
      else if firstChar paramType = 'd' then
        (s, [Msg.pidEchoParam paramType, Msg.pidValue s.kd])
      else
        (s, [Msg.pidEchoParam paramType, Msg.invalidPidParam])
    else
      if firstChar paramType = 'p' then ({ s with kp := atof valueStr }, [])
      else if firstChar paramType = 'i' then ({ s with ki := atof valueStr }, [])
      else if firstChar paramType = 'd' then ({ s with kd := atof valueStr }, [])
      else (s, [Msg.invalidPidParam])

/-- cmdMotor from main.cpp. The start and stop subcommands drive the motor
power stage, which is external hardware, and touch none of the tracked
state. -/
def cmdMotor (s : SysState) (args : List Token) : SysState × List Msg :=
  match args with
  | [] => (s, [Msg.usageMotor])
  | subcmd :: rest =>
    if subcmd = ['s', 'p', 'e', 'e', 'd'] then
      match rest with
      | [] => (s, [Msg.usageMotorSpeed])
      | valueStr :: _ =>
        if valueStr = ['?'] then (s, [Msg.motorSpeedEcho s.baseSpeed])
        else ({ s with baseSpeed := wrap16 (atoi valueStr) }, [])
    else if subcmd = ['s', 't', 'a', 'r', 't'] then (s, [])
    else if subcmd = ['s', 't', 'o', 'p'] then (s, [])
    else (s, [Msg.usageMotor])

/-- cmdLog from main.cpp. The state token is compared against on only: any
other token, including tokens outside the documented grammar, is applied as
off. -/
def cmdLog (s : SysState) (args : List Token) : SysState × List Msg :=
  match args with
  | [] => (s, [Msg.usageLog, Msg.logTypesHint])
  | [_] => (s, [Msg.usageLog])
  | ty :: stateStr :: _ =>
    let state : Bool := decide (stateStr = ['o', 'n'])
    if firstChar ty = 'p' then ({ s with logP := state }, [])
    else if firstChar ty = 'i' then ({ s with logI := state }, [])
    else if firstChar ty = 'd' then ({ s with logD := state }, [])
    else if firstChar ty = 's' then ({ s with logS := state }, [])
    else if firstChar ty = 'l' then ({ s with logL := state }, [])
    else if firstChar ty = 'o' then ({ s with logO := state }, [])
    else (s, [Msg.invalidLogType])

/-- The terminal dispatch registered in setup() of main.cpp: the first token
of a line selects the handler, an unrecognized first token falls to
unknownCommand. -/
def handleLine (s : SysState) (line : List Token) : SysState × List Msg :=
  match line with
  | [] => (s, [])
  | cmd :: args =>
    if cmd = ['?'] ∨ cmd = ['h', 'e', 'l', 'p'] then (s, [Msg.helpText])
    else if cmd = ['b', 'o', 'o', 't', 'l', 'o', 'a', 'd', 'e', 'r'] then
      (s, [Msg.bootloaderMsg])
    else if cmd = ['p', 'i', 'd'] then cmdPid s args
    else if cmd = ['m', 'o', 't', 'o', 'r'] then cmdMotor s args
    else if cmd = ['l', 'o', 'g'] then cmdLog s args
    else (s, [Msg.unknownCmd cmd, Msg.helpHint])

/-- C1 fails as stated: the line log p maybe carries a state token outside
the on-off grammar, yet the handler applies it (logP flips from true to
false, exactly as off would) and emits no usage or invalid-parameter
message. -/
theorem log_state_token_counterexample :
    (handleLine ⟨1, 0, 5, 20, true, false, false, true, true, true⟩
        [['l', 'o', 'g'], ['p'], ['m', 'a', 'y', 'b', 'e']]).1 ≠
      (⟨1, 0, 5, 20, true, false, false, true, true, true⟩ : SysState) ∧
    (handleLine ⟨1, 0, 5, 20, true, false, false, true, true, true⟩
        [['l', 'o', 'g'], ['p'], ['m', 'a', 'y', 'b', 'e']]).2 = [] := by decide

/-- C1 amended: the rejection paths the handlers actually take, namely a
missing first or second token, an unrecognized gain letter and an
unrecognized log type, emit the corresponding usage or invalid-parameter
message and leave the whole state unchanged; tokens in value position,
however, are not validated: a log state token other than on is applied as
off, and numeric tokens go through atof or atoi, so such lines mutate state
instead of being rejected. -/
theorem cmd_reject_paths_no_mutation :
    (∀ s, cmdPid s [] = (s, [Msg.usagePid])) ∧
    (∀ s t, cmdPid s [t] = (s, [Msg.usagePid])) ∧
    (∀ s t v rest, firstChar t ≠ 'p' → firstChar t ≠ 'i' → firstChar t ≠ 'd' →
      v ≠ ['?'] → cmdPid s (t :: v :: rest) = (s, [Msg.invalidPidParam])) ∧
    (∀ s t rest, firstChar t ≠ 'p' → firstChar t ≠ 'i' → firstChar t ≠ 'd' →
      cmdPid s (t :: ['?'] :: rest) =
        (s, [Msg.pidEchoParam t, Msg.invalidPidParam])) ∧
    (∀ s, cmdMotor s [] = (s, [Msg.usageMotor])) ∧
    (∀ s sub rest, sub ≠ ['s', 'p', 'e', 'e', 'd'] →
      sub ≠ ['s', 't', 'a', 'r', 't'] → sub ≠ ['s', 't', 'o', 'p'] →
      cmdMotor s (sub :: rest) = (s, [Msg.usageMotor])) ∧
    (∀ s, cmdMotor s [['s', 'p', 'e', 'e', 'd']] = (s, [Msg.usageMotorSpeed])) ∧
    (∀ s, cmdLog s [] = (s, [Msg.usageLog, Msg.logTypesHint])) ∧
    (∀ s t, cmdLog s [t] = (s, [Msg.usageLog])) ∧
    (∀ s t st rest, firstChar t ≠ 'p' → firstChar t ≠ 'i' → firstChar t ≠ 'd' →
      firstChar t ≠ 's' → firstChar t ≠ 'l' → firstChar t ≠ 'o' →
      cmdLog s (t :: st :: rest) = (s, [Msg.invalidLogType])) := by
  refine ⟨?_, ?_, ?_, ?_, ?_, ?_, ?_, ?_, ?_, ?_⟩
  · intro s
    rfl
  · intro s t
    rfl
  · intro s t v rest hp hi hd hq
    simp [cmdPid, hp, hi, hd, hq]
  · intro s t rest hp hi hd
    simp [cmdPid, hp, hi, hd]
  · intro s
    rfl
  · intro s sub rest h1 h2 h3
    simp [cmdMotor, h1, h2, h3]
  · intro s
    simp [cmdMotor]
  · intro s
    rfl
  · intro s t
    rfl
  · intro s t st rest h1 h2 h3 h4 h5 h6
    simp [cmdLog, h1, h2, h3, h4, h5, h6]

/-- Witness for the amended rejection theorem: pid x 1 emits the
invalid-parameter message and leaves the default state unchanged. -/
theorem cmd_reject_paths_no_mutation_witness :
    cmdPid ⟨1, 0, 5, 20, false, false, false, true, true, true⟩
        [['x'], ['1']] =
      (⟨1, 0, 5, 20, false, false, false, true, true, true⟩,
        [Msg.invalidPidParam]) :=
  cmd_reject_paths_no_mutation.2.2.1
    ⟨1, 0, 5, 20, false, false, false, true, true, true⟩ ['x'] ['1'] []
    (by decide) (by decide) (by decide) (by decide)

/-- C10: the pid and log handlers dispatch on the first character of the
parameter token only; the remainder of the token is never validated. A
write-mode pid line whose parameter starts with p, i or d sets that gain to
the atof of the value token, and a log line whose type starts with one of
the six flag letters sets that flag from the state token. -/
theorem cmd_first_char_dispatch :
    (∀ s t v rest, v ≠ ['?'] → firstChar t = 'p' →
      cmdPid s (t :: v :: rest) = ({ s with kp := atof v }, [])) ∧
    (∀ s t v rest, v ≠ ['?'] → firstChar t = 'i' →
      cmdPid s (t :: v :: rest) = ({ s with ki := atof v }, [])) ∧
    (∀ s t v rest, v ≠ ['?'] → firstChar t = 'd' →
      cmdPid s (t :: v :: rest) = ({ s with kd := atof v }, [])) ∧
    (∀ s t st rest, firstChar t = 'p' →
      cmdLog s (t :: st :: rest) =
        ({ s with logP := decide (st = ['o', 'n']) }, [])) ∧
    (∀ s t st rest, firstChar t = 'i' →
      cmdLog s (t :: st :: rest) =
        ({ s with logI := decide (st = ['o', 'n']) }, [])) ∧
    (∀ s t st rest, firstChar t = 'd' →
      cmdLog s (t :: st :: rest) =
        ({ s with logD := decide (st = ['o', 'n']) }, [])) ∧
    (∀ s t st rest, firstChar t = 's' →
      cmdLog s (t :: st :: rest) =
        ({ s with logS := decide (st = ['o', 'n']) }, [])) ∧
    (∀ s t st rest, firstChar t = 'l' →
      cmdLog s (t :: st :: rest) =
        ({ s with logL := decide (st = ['o', 'n']) }, [])) ∧
    (∀ s t st rest, firstChar t = 'o' →
      cmdLog s (t :: st :: rest) =
        ({ s with logO := decide (st = ['o', 'n']) }, [])) := by
  refine ⟨?_, ?_, ?_, ?_, ?_, ?_, ?_, ?_, ?_⟩
  · intro s t v rest hq hp
    simp [cmdPid, hq, hp]
  · intro s t v rest hq hi
    simp [cmdPid, hq, hi]
  · intro s t v rest hq hd
    simp [cmdPid, hq, hd]
  · intro s t st rest hp
    simp [cmdLog, hp]
  · intro s t st rest hi
    simp [cmdLog, hi]
  · intro s t st rest hd
    simp [cmdLog, hd]
  · intro s t st rest hs
    simp [cmdLog, hs]
  · intro s t st rest hl
    simp [cmdLog, hl]
  · intro s t st rest ho
    simp [cmdLog, ho]

/-- Witness for the first-character dispatch theorem: pid px 1 is accepted
and sets the proportional gain. -/
theorem cmd_first_char_dispatch_witness :
    cmdPid ⟨2, 0, 5, 20, false, false, false, true, true, true⟩
        [['p', 'x'], ['1']] =
      ({ (⟨2, 0, 5, 20, false, false, false, true, true, true⟩ : SysState)
          with kp := atof ['1'] }, []) :=
  cmd_first_char_dispatch.1
    ⟨2, 0, 5, 20, false, false, false, true, true, true⟩ ['p', 'x'] ['1'] []
    (by decide) (by decide)
